import Mathlib

/-!
Verification development for the website file-extractor service.

The repository has two parallel implementations of the extraction pipeline:
`src/routes.ts` (backed by `MemStorage` in `src/storage.ts`, typed by
`src/schema.ts`) and a self-contained duplicate (the unnamed server file,
modelled here in namespace `P0`).  This file gives a shallow embedding of
both: pure functions are translated directly, the stateful pipeline becomes
explicit state passing over an `ExtractionResult` record, and the external
collaborators (the WHATWG `URL` class, `axios` HTTP fetches, `cheerio` HTML
scanning, `crypto.randomUUID`, `JSON.stringify` and the CSS regexes) are
modelled as explicit oracles/parameters, since their behaviour is not code
of this repository.
-/

/-- UTF-8 byte length of a string; embeds Node's `Buffer.byteLength(s, 'utf8')`. -/
def utf8Len (s : String) : Nat :=
  s.data.foldl (fun n c => n + c.utf8Size) 0

/-! ### Kernel-computable string primitives

Several core `String` operations (`trim`, `splitOn`, `startsWith`,
`toLower`, `takeWhile`) are implemented over byte positions and do not
reduce inside the kernel, so the JS string primitives used by the source
are modelled directly over the character list of the string. -/

/-- Embeds `s.startsWith(pre)`. -/
def strStartsWith (s pre : String) : Bool :=
  pre.data.isPrefixOf s.data

/-- Embeds `s.toLowerCase()` (ASCII range, the only one the extensions use). -/
def strToLower (s : String) : String :=
  String.mk (s.data.map Char.toLower)

/-- Embeds `s.trim()`. -/
def strTrim (s : String) : String :=
  String.mk (((s.data.dropWhile Char.isWhitespace).reverse.dropWhile
    Char.isWhitespace).reverse)

/-- Split a character list at every occurrence of `sep` (JS
`s.split(sep)` for a single-character separator: always at least one
field, empty fields preserved). -/
def splitOnChar (sep : Char) : List Char → List (List Char)
  | [] => [[]]
  | c :: cs =>
    let r := splitOnChar sep cs
    if c = sep then [] :: r
    else
      match r with
      | [] => [[c]]
      | h :: t => (c :: h) :: t

/-- Embeds `s.split(sep)` for a one-character separator. -/
def strSplitOnChar (sep : Char) (s : String) : List String :=
  (splitOnChar sep s.data).map String.mk

/-- Substring occurrence over character lists. -/
def containsSub (s : List Char) (sub : List Char) : Bool :=
  match s with
  | [] => sub.isEmpty
  | c :: cs => sub.isPrefixOf (c :: cs) || containsSub cs sub

/-- Alphabet of standard base64 (RFC 4648). -/
def b64Chars : List Char :=
  ['A', 'B', 'C', 'D', 'E', 'F', 'G', 'H', 'I', 'J', 'K', 'L', 'M',
   'N', 'O', 'P', 'Q', 'R', 'S', 'T', 'U', 'V', 'W', 'X', 'Y', 'Z',
   'a', 'b', 'c', 'd', 'e', 'f', 'g', 'h', 'i', 'j', 'k', 'l', 'm',
   'n', 'o', 'p', 'q', 'r', 's', 't', 'u', 'v', 'w', 'x', 'y', 'z',
   '0', '1', '2', '3', '4', '5', '6', '7', '8', '9', '+', '/']

/-- Character of the standard base64 alphabet at index `n` (for `n < 64`). -/
def b64Char (n : Nat) : Char := b64Chars.getD n 'A'

/-- Index of a character in the base64 alphabet (64 when absent). -/
def b64Val (c : Char) : Nat := b64Chars.indexOf c

/-- Standard base64 encoding of a byte list, embedding Node's
`Buffer.from(bytes).toString('base64')` (RFC 4648, with `=` padding). -/
def b64encodeList : List Nat → List Char
  | [] => []
  | [a] => [b64Char (a / 4), b64Char (a % 4 * 16), '=', '=']
  | [a, b] => [b64Char (a / 4), b64Char (a % 4 * 16 + b / 16), b64Char (b % 16 * 4), '=']
  | a :: b :: c :: rest =>
      b64Char (a / 4) :: b64Char (a % 4 * 16 + b / 16) ::
      b64Char (b % 16 * 4 + c / 64) :: b64Char (c % 64) :: b64encodeList rest

/-- Standard base64 decoding (the mathematical inverse used to state the
round-trip property of the stored data-URI payload). -/
def b64decodeList : List Char → List Nat
  | c1 :: c2 :: c3 :: c4 :: rest =>
      if c3 = '=' then [b64Val c1 * 4 + b64Val c2 / 16]
      else if c4 = '=' then
        [b64Val c1 * 4 + b64Val c2 / 16, b64Val c2 % 16 * 16 + b64Val c3 / 4]
      else
        (b64Val c1 * 4 + b64Val c2 / 16) :: (b64Val c2 % 16 * 16 + b64Val c3 / 4) ::
        (b64Val c3 % 4 * 64 + b64Val c4) :: b64decodeList rest
  | _ => []

/-! ## Data model (src/schema.ts)

`ExtractedFile` and `ExtractionResult` mirror `extractedFileSchema` and
`extractionResultSchema`.  The `type` and `status` fields are strings, as at
the JS runtime (the zod enums only validate request bodies); this also lets
the same record type serve the duplicate implementation, whose `type` values
range over a larger set. -/

structure ExtractedFile where
  id : String
  name : String
  path : String
  type : String
  size : Nat
  content : String
  mimeType : String
deriving DecidableEq, Repr

structure ExtractionResult where
  id : String
  url : String
  status : String
  files : List ExtractedFile
  totalSize : Nat
  totalFiles : Nat
  extractedAt : String
  error : Option String
deriving DecidableEq, Repr

/-- Sum of file sizes; embeds `files.reduce((sum, f) => sum + f.size, 0)`. -/
def sumSizes (fs : List ExtractedFile) : Nat :=
  fs.foldl (fun sum f => sum + f.size) 0

/-! ## URL collaborator model

Node's WHATWG `URL` class is an external library, not code of this
repository.  `urlHostPath`, `urlPathname` and `urlResolve` model it on the
restricted domain the claims exercise: plain `http`/`https` URLs with a
nonempty host and a simple path (no userinfo, port normalization,
dot-segment removal, query or fragment splitting, or non-network schemes).
`urlResolve relative base` models `new URL(relative, base).href`:
`some href` when the constructor succeeds, `none` when it throws. -/

def schemeSplit (s : String) : Option (String × String) :=
  if strStartsWith s "http://" then some ("http://", s.drop 7)
  else if strStartsWith s "https://" then some ("https://", s.drop 8)
  else none

def urlHostPath (s : String) : Option (String × String × String) :=
  match schemeSplit s with
  | none => none
  | some (scheme, rest) =>
    let host := String.mk (rest.data.takeWhile (fun c => c != '/'))
    if host = "" then none
    else some (scheme, host, String.mk (rest.data.dropWhile (fun c => c != '/')))

/-- Pathname of a parsed URL, embedding `new URL(s).pathname` (the pathname of
`http://host` with no path is `/`). -/
def urlPathname (s : String) : Option String :=
  match urlHostPath s with
  | none => none
  | some (_, _, p) => some (if p = "" then "/" else p)

/-- Directory prefix of a URL path (everything up to and including the last
slash), used for resolving path-relative references. -/
def dirOfPath (p : String) : String :=
  if p.data.contains '/' then
    String.mk ((p.data.reverse.dropWhile (fun c => c != '/')).reverse)
  else "/"

/-- Modelled collaborator: `new URL(relative, base).href`, on the restricted
domain described above.  Absolute http(s) references resolve to themselves;
otherwise a root-relative or path-relative reference is resolved against a
parseable http(s) base; when neither parses, the constructor throws (`none`). -/
def urlResolve (relative base : String) : Option String :=
  match urlHostPath relative with
  | some _ => some relative
  | none =>
    match urlHostPath base with
    | none => none
    | some (scheme, host, bpath) =>
      if strStartsWith relative "/" then some (scheme ++ host ++ relative)
      else if relative = "" then some (scheme ++ host ++ (if bpath = "" then "/" else bpath))
      else some (scheme ++ host ++ dirOfPath bpath ++ relative)

/-! ## src/routes.ts helper functions (lines 408-455) -/

/-- Embeds `resolveUrl` of src/routes.ts (lines 408-414): on a parse failure
the catch block returns `relative` itself — not null. -/
def resolveUrl (base relative : String) : String :=
  (urlResolve relative base).getD relative

/-- Last `.`-separated component, lower-cased: `fileName.split('.').pop()?.toLowerCase()`
(with the `|| ''` fallbacks used at the call sites). -/
def lastExtOf (fileName : String) : String :=
  strToLower ((strSplitOnChar '.' fileName).getLastD "")

/-- Embeds `getFileType` of src/routes.ts (lines 416-430). -/
def getFileType (fileName : String) : String :=
  match lastExtOf fileName with
  | "css" => "css"
  | "js" => "js"
  | "mjs" => "js"
  | "ts" => "js"
  | "jsx" => "js"
  | "tsx" => "js"
  | "html" => "html"
  | "htm" => "html"
  | "png" => "image"
  | "jpg" => "image"
  | "jpeg" => "image"
  | "gif" => "image"
  | "svg" => "image"
  | "webp" => "image"
  | "ico" => "image"
  | "bmp" => "image"
  | "tiff" => "image"
  | "json" => "payload"
  | "xml" => "payload"
  | _ => "other"

/-- Embeds `getFolderPath` of src/routes.ts (lines 432-440). -/
def getFolderPath (type : String) : String :=
  match type with
  | "css" => "css"
  | "js" => "js"
  | "image" => "images"
  | "payload" => "payloads"
  | _ => "assets"

/-- Embeds `getMimeType` of src/routes.ts (lines 442-455). -/
def getMimeType (fileName : String) : String :=
  match lastExtOf fileName with
  | "css" => "text/css"
  | "js" => "application/javascript"
  | "html" => "text/html"
  | "htm" => "text/html"
  | "json" => "application/json"
  | "png" => "image/png"
  | "jpg" => "image/jpeg"
  | "jpeg" => "image/jpeg"
  | "gif" => "image/gif"
  | "svg" => "image/svg+xml"
  | _ => "text/plain"

/-- Extension list deciding binary transfer (src/routes.ts line 267). -/
def binaryExts : List String :=
  ["png", "jpg", "jpeg", "gif", "webp", "ico", "bmp", "tiff", "woff", "woff2",
   "ttf", "eot", "otf", "mp4", "webm", "ogg", "mp3", "wav", "pdf"]

/-- Embeds the JS idiom `response.headers['content-type'] || getMimeType(fileName)`
(src/routes.ts lines 285 and 300): an absent or empty header falls back to the
canonical MIME type derived from the file name. -/
def ctOrDefault (ct : Option String) (fileName : String) : String :=
  match ct with
  | some c => if c = "" then getMimeType fileName else c
  | none => getMimeType fileName

/-! ## Oracle types

The network and the HTML/CSS scanners are collaborators.  `RawResp` is an
asset response as axios delivers it (`bytes` under `arraybuffer` transfer,
`text` under text transfer, plus the `content-type` header); a fetch oracle
returning `none` stands for any axios rejection (network error, timeout,
non-2xx status, response over the `maxContentLength` cap).  `ApiResp` is a
payload-probe response: `rawJson` is what `JSON.stringify(response.data)`
yields and `wrappedJson` what `JSON.stringify({url, status, headers, data},
null, 2)` yields, both supplied by the oracle since `JSON.stringify` is a
JS builtin.  `ids` abstracts `crypto.randomUUID()`: an arbitrary supply of
identifier strings keyed by call site; no claim depends on its values or on
their uniqueness. -/

structure RawResp where
  bytes : List Nat
  text : String
  contentType : Option String
deriving DecidableEq, Repr

structure ApiResp where
  dataTruthy : Bool
  ctIncludesJson : Bool
  rawJson : String
  wrappedJson : String
deriving DecidableEq, Repr

/-- Scan result of the root HTML document, i.e. the cheerio collaborator's
output for `extractWebsiteFiles` (src/routes.ts lines 117-218 and 346-355):
`assetRefs` lists, in document order, the results of `resolveUrl(url, ref)`
for every stylesheet link, script src, img src, icon/manifest/font link,
media/embed/iframe source, `style`-attribute `url(...)` reference and
dynamic-import candidate found in inline scripts; `inlineScripts` and
`inlineStyles` are the bodies of `script:not([src])` and `style` elements;
`apiRefs` are the API-looking string literals found in script bodies
(before resolution); `html` is the raw document text. -/
structure Page where
  assetRefs : List String
  inlineScripts : List String
  inlineStyles : List String
  apiRefs : List String
  html : String
deriving DecidableEq, Repr

structure Env where
  fetch : String → Option RawResp
  apiFetch : String → Option ApiResp
  cssRefs : String → List String
  ids : String → String

/-- Insertion into a JS `Set` modelled as an insertion-ordered duplicate-free
list: already-present elements are ignored, new ones appended. -/
def listSetAdd [BEq α] (l : List α) (x : α) : List α :=
  if l.contains x then l else l ++ [x]

def listSetAddAll [BEq α] (l xs : List α) : List α :=
  xs.foldl listSetAdd l

/-- Contents of a JS `Set` built by inserting the elements of `l` in order
(`Array.from(new Set(l))`). -/
def listDedup [BEq α] (l : List α) : List α :=
  listSetAddAll [] l

/-! ## File constructors shared by both implementations

The inline-script, inline-style and source-page blocks are textually
identical in src/routes.ts (lines 153-196, 220-232) and in the duplicate
implementation (lines 246-293). -/

/-- Embeds the inline `<script>` synthesis (src/routes.ts lines 156-165). -/
def mkInlineScriptFile (ids : String → String) (scriptContent : String) : ExtractedFile :=
  let fileName := "inline-script-" ++ (ids ("script-name:" ++ scriptContent)).take 8 ++ ".js"
  { id := ids ("script-id:" ++ scriptContent), name := fileName, path := "js/" ++ fileName,
    type := "js", size := utf8Len scriptContent, content := scriptContent,
    mimeType := "application/javascript" }

/-- Embeds the inline `<style>` synthesis (src/routes.ts lines 184-193). -/
def mkInlineStyleFile (ids : String → String) (styleContent : String) : ExtractedFile :=
  let fileName := "inline-style-" ++ (ids ("style-name:" ++ styleContent)).take 8 ++ ".css"
  { id := ids ("style-id:" ++ styleContent), name := fileName, path := "css/" ++ fileName,
    type := "css", size := utf8Len styleContent, content := styleContent,
    mimeType := "text/css" }

/-- Embeds the source-page file (src/routes.ts lines 222-230). -/
def mkSourceFile (ids : String → String) (content : String) : ExtractedFile :=
  { id := ids ("source-id:" ++ content), name := "index.html", path := "index.html",
    type := "html", size := utf8Len content, content := content, mimeType := "text/html" }

/-- Embeds the binary branch of the asset fetch (src/routes.ts lines 283-286
and 293-301): `content` is the data-URI wrapper around the base64 encoding of
the response bytes while `size` is `response.data.byteLength`, the byte count
of the raw (pre-encoding) response. -/
def mkBinaryAssetFile (fid fileName fileType : String) (ct : Option String)
    (bytes : List Nat) : ExtractedFile :=
  { id := fid, name := fileName, path := getFolderPath fileType ++ "/" ++ fileName,
    type := fileType, size := bytes.length,
    content := "data:" ++ ctOrDefault ct fileName ++ ";base64," ++
      String.mk (b64encodeList bytes),
    mimeType := ctOrDefault ct fileName }

/-- Embeds the text branch of the asset fetch (src/routes.ts lines 287-301). -/
def mkTextAssetFile (fid fileName fileType : String) (ct : Option String)
    (text : String) : ExtractedFile :=
  { id := fid, name := fileName, path := getFolderPath fileType ++ "/" ++ fileName,
    type := fileType, size := utf8Len text, content := text,
    mimeType := ctOrDefault ct fileName }

/-! ## src/routes.ts asset batch stage -/

/-- Embeds the file-name derivation of the per-asset closure (src/routes.ts
lines 249-258); `none` models `new URL(assetUrl)` throwing, which the
per-asset catch turns into a skip. -/
def assetFileName (ids : String → String) (assetUrl : String) : Option String :=
  match urlPathname assetUrl with
  | none => none
  | some pathname =>
    let popped := (strSplitOnChar '/' pathname).getLastD ""
    let fileName := if popped = "" then "file" else popped
    let cleanFileName := (strSplitOnChar '?' fileName).headD ""
    some (if cleanFileName = "" then "asset-" ++ (ids ("asset-name:" ++ assetUrl)).take 8
          else cleanFileName)

/-- Embeds one iteration of the per-asset closure (src/routes.ts lines
241-337): the produced file (none = skipped or failed) and the list of URLs
the CSS-reference scan resolves and adds to the asset set.  `env.cssRefs`
abstracts the two regex passes over fetched CSS text (`@import` targets then
`url(...)` references, lines 310-329), returning the matched reference
strings in order. -/
def processAsset (env : Env) (assetUrl : String) : Option ExtractedFile × List String :=
  if assetUrl = "" ∨ assetUrl.length > 2000 then (none, [])
  else
    match assetFileName env.ids assetUrl with
    | none => (none, [])
    | some fileName =>
      if strStartsWith assetUrl "data:" = true ∨ assetUrl.length > 1000 then (none, [])
      else
        let fileType := getFileType fileName
        let fileExt := lastExtOf fileName
        let isBinary := binaryExts.contains fileExt
        match env.fetch assetUrl with
        | none => (none, [])
        | some resp =>
          let file := if isBinary then
              mkBinaryAssetFile (env.ids assetUrl) fileName fileType resp.contentType resp.bytes
            else
              mkTextAssetFile (env.ids assetUrl) fileName fileType resp.contentType resp.text
          let discovered :=
            if fileType = "css" ∧ isBinary = false ∧ strStartsWith file.content "data:" = false then
              ((env.cssRefs file.content).filter
                (fun p => (p != "") && !(strStartsWith p "data:"))).map
                (fun p => resolveUrl assetUrl p)
            else []
          (some file, discovered)

structure AssetLoopState where
  assets : List String
  files : List ExtractedFile
deriving DecidableEq, Repr

/-- Embeds the batch loop (src/routes.ts lines 234-338).  The loop iterates
over `assetArray`, the snapshot `Array.from(assets)` taken at line 235; the
live `assets` set is still mutated by the CSS-reference scan.  Batching
(`batchSize = 10`, `Promise.allSettled` per batch) only bounds concurrency;
which URLs are processed is determined by the snapshot, and files are
appended via `storage.addFileToExtraction` as fetches settle — the claims
checked here are insensitive to the within-batch completion order, which is
modelled as snapshot order. -/
def runAssetLoop (env : Env) : List String → AssetLoopState → AssetLoopState
  | [], st => st
  | u :: rest, st =>
    let pr := processAsset env u
    runAssetLoop env rest
      { assets := listSetAddAll st.assets pr.2, files := st.files ++ pr.1.toList }

/-! ## src/routes.ts payload probe (lines 340-400) -/

def commonEndpoints : List String :=
  ["/api/status", "/api/health", "/api/version", "/graphql"]

/-- Embeds the construction of `potentialApiUrls` and the `slice(0, 5)` cap
(src/routes.ts lines 343-364). -/
def probeUrls (url : String) (page : Page) : List String :=
  (listDedup ((page.apiRefs.map (fun r => resolveUrl url r)) ++
    (commonEndpoints.map (fun ep => resolveUrl url ep)))).take 5

/-- Embeds the payload file constructor (src/routes.ts lines 376-391):
`size` is the byte length of `JSON.stringify(apiResponse.data)` while
`content` is the pretty-printed wrapper object. -/
def mkPayloadFile (ids : String → String) (n : Nat) (resp : ApiResp) : ExtractedFile :=
  let fileName := "api-response-" ++ toString n ++ ".json"
  { id := ids ("payload-id:" ++ fileName), name := fileName, path := "payloads/" ++ fileName,
    type := "payload", size := utf8Len resp.rawJson, content := resp.wrappedJson,
    mimeType := "application/json" }

/-- Embeds the probe loop (src/routes.ts lines 363-399): failures are ignored,
`payloadCount` increments only for kept responses. -/
def runPayloadProbe (env : Env) (urls : List String) : List ExtractedFile :=
  (urls.foldl
    (fun (acc : List ExtractedFile × Nat) apiUrl =>
      match env.apiFetch apiUrl with
      | none => acc
      | some r =>
        if r.dataTruthy && r.ctIncludesJson then
          (acc.1 ++ [mkPayloadFile env.ids (acc.2 + 1) r], acc.2 + 1)
        else acc)
    ([], 0)).1

/-! ## src/routes.ts orchestrator -/

structure JSError where
  message : String
  isError : Bool
deriving DecidableEq, Repr

/-- Embeds `error instanceof Error ? error.message : 'Unknown error'`. -/
def jsErrMsg (e : JSError) : String :=
  if e.isError then e.message else "Unknown error"

/-- Embeds `MemStorage.createExtractionResult` (src/storage.ts lines 18-31). -/
def createExtractionResult (id url extractedAt : String) : ExtractionResult :=
  { id := id, url := url, status := "pending", files := [], totalSize := 0,
    totalFiles := 0, extractedAt := extractedAt, error := none }

def inlineScriptFiles (ids : String → String) (page : Page) : List ExtractedFile :=
  (page.inlineScripts.filter (fun s => strTrim s != "")).map (mkInlineScriptFile ids)

def inlineStyleFiles (ids : String → String) (page : Page) : List ExtractedFile :=
  (page.inlineStyles.filter (fun s => strTrim s != "")).map (mkInlineStyleFile ids)

/-- Embeds one full run of `extractWebsiteFiles` (src/routes.ts lines
103-406) together with its caller's catch block (lines 21-27), acting on the
record freshly created by `createExtractionResult`.  `root` is the outcome
of the root-page fetch plus cheerio scan: `Except.error` models the axios
rejection that propagates out of `extractWebsiteFiles` and is caught at the
call site, which merges `status: failed` and the error message into the
record.  On success, files are appended in code order (inline scripts,
inline styles, optional source page, fetched assets, payload files); every
append goes through `storage.addFileToExtraction`, which recomputes
`totalFiles`/`totalSize` from the full sequence, so after the final append
the totals equal the recomputation over the final list (and a run with no
appends leaves the created record's zeros, which coincide). -/
def extractRun (env : Env) (id url extractedAt : String)
    (includePayloads includeSourcePage : Bool) (root : Except JSError Page) :
    ExtractionResult :=
  let e0 := createExtractionResult id url extractedAt
  let e1 := { e0 with status := "processing" }
  match root with
  | .error err => { e1 with status := "failed", error := some (jsErrMsg err) }
  | .ok page =>
    let inline := inlineScriptFiles env.ids page ++ inlineStyleFiles env.ids page
    let sourceFiles := if includeSourcePage then [mkSourceFile env.ids page.html] else []
    let assetArray := listDedup page.assetRefs
    let st := runAssetLoop env assetArray { assets := assetArray, files := [] }
    let payloadFiles := if includePayloads then runPayloadProbe env (probeUrls url page) else []
    let fs := inline ++ sourceFiles ++ st.files ++ payloadFiles
    { e1 with
      status := "completed",
      files := fs,
      totalFiles := fs.length,
      totalSize := sumSizes fs }

/-! ## MemStorage (src/storage.ts)

The private `extractions` map is modelled as a function from ids to optional
records; `Map.set` is pointwise update.  Throwing `new Error("Extraction not
found")` is modelled as `Except.error`: the function returns before any
mutation, so the caller's store is unchanged. -/

abbrev Store := String → Option ExtractionResult

def updStore (store : Store) (id : String) (e : ExtractionResult) : Store :=
  fun j => if j = id then some e else store j

/-- Fields of a `Partial<ExtractionResult>` argument: `some v` when the key
is present in `updates`, `none` when absent (spread copies only present
keys). -/
structure ExtractionUpdates where
  id : Option String := none
  url : Option String := none
  status : Option String := none
  files : Option (List ExtractedFile) := none
  totalSize : Option Nat := none
  totalFiles : Option Nat := none
  extractedAt : Option String := none
  error : Option (Option String) := none
deriving DecidableEq, Repr

/-- Embeds the spread merge `{ ...existing, ...updates }`. -/
def applyUpdates (e : ExtractionResult) (u : ExtractionUpdates) : ExtractionResult :=
  { id := u.id.getD e.id,
    url := u.url.getD e.url,
    status := u.status.getD e.status,
    files := u.files.getD e.files,
    totalSize := u.totalSize.getD e.totalSize,
    totalFiles := u.totalFiles.getD e.totalFiles,
    extractedAt := u.extractedAt.getD e.extractedAt,
    error := u.error.getD e.error }

/-- Embeds `MemStorage.updateExtractionResult` (src/storage.ts lines 37-45). -/
def updateExtractionResult (store : Store) (id : String) (u : ExtractionUpdates) :
    Except String (Store × ExtractionResult) :=
  match store id with
  | none => .error "Extraction not found"
  | some existing =>
    let updated := applyUpdates existing u
    .ok (updStore store id updated, updated)

/-- Embeds `MemStorage.addFileToExtraction` (src/storage.ts lines 47-56):
append, then recompute both totals from the full sequence. -/
def addFileToExtraction (store : Store) (extractionId : String) (file : ExtractedFile) :
    Except String Store :=
  match store extractionId with
  | none => .error "Extraction not found"
  | some extraction =>
    let e1 := { extraction with files := extraction.files ++ [file] }
    let e2 := { e1 with
      totalFiles := e1.files.length,
      totalSize := sumSizes e1.files }
    .ok (updStore store extractionId e2)

/-! ## The duplicate implementation (the unnamed server file)

Namespace `P0` embeds the self-contained second pipeline.  It differs from
src/routes.ts in: `resolveUrl` returns null on failure, `getFileType` takes
the declared MIME type and ranges over more categories (`font`, `json`,
`xml`), assets are only downloaded when `includePayloads` is set, every
asset uses `arraybuffer` transfer, there is no CSS recursion and no payload
probe, and files are pushed onto `extraction.files` without updating the
totals, which are recomputed once at completion. -/

namespace P0

/-- Embeds `resolveUrl` of the duplicate implementation (lines 35-41):
returns null (`none`) when `new URL` throws. -/
def resolveUrl (base relative : String) : Option String :=
  urlResolve relative base

/-- Embeds `getFileExtension` (lines 43-51). -/
def getFileExtension (url : String) : String :=
  match urlPathname url with
  | some pathname => strToLower ((strSplitOnChar '.' pathname).getLastD "")
  | none => ""

/-- Embeds the JS `String.prototype.includes` substring test. -/
def strIncludes (s sub : String) : Bool :=
  containsSub s.data sub.data

/-- Extension switch of `getFileType` (lines 64-73). -/
def extSwitch (ext : String) : String :=
  match ext with
  | "html" => "html"
  | "htm" => "html"
  | "css" => "css"
  | "js" => "js"
  | "mjs" => "js"
  | "jsx" => "js"
  | "ts" => "js"
  | "tsx" => "js"
  | "png" => "image"
  | "jpg" => "image"
  | "jpeg" => "image"
  | "gif" => "image"
  | "svg" => "image"
  | "webp" => "image"
  | "ico" => "image"
  | "woff" => "font"
  | "woff2" => "font"
  | "ttf" => "font"
  | "eot" => "font"
  | "otf" => "font"
  | "json" => "json"
  | "xml" => "xml"
  | _ => "other"

/-- Embeds `getFileType` of the duplicate implementation (lines 53-74): the
declared MIME type, when truthy, is consulted first; note the `font`,
`json` and `xml` results. -/
def getFileType (url : String) (mimeType : Option String) : String :=
  let ext := getFileExtension url
  match mimeType with
  | none => extSwitch ext
  | some mt =>
    if mt = "" then extSwitch ext
    else if strIncludes mt "text/html" then "html"
    else if strIncludes mt "text/css" then "css"
    else if strIncludes mt "javascript" then "js"
    else if strIncludes mt "image/" then "image"
    else if strIncludes mt "font/" then "font"
    else extSwitch ext

/-- Lookup table of `getMimeType` (lines 76-99). -/
def mimeLookup (k : String) : Option String :=
  match k with
  | "html" => some "text/html"
  | "css" => some "text/css"
  | "js" => some "application/javascript"
  | "json" => some "application/json"
  | "xml" => some "application/xml"
  | "png" => some "image/png"
  | "jpg" => some "image/jpeg"
  | "jpeg" => some "image/jpeg"
  | "gif" => some "image/gif"
  | "svg" => some "image/svg+xml"
  | "webp" => some "image/webp"
  | "ico" => some "image/x-icon"
  | "woff" => some "font/woff"
  | "woff2" => some "font/woff2"
  | "ttf" => some "font/ttf"
  | "eot" => some "application/vnd.ms-fontobject"
  | "otf" => some "font/otf"
  | _ => none

/-- Embeds `getMimeType` of the duplicate implementation (lines 76-99):
`mimeTypes[ext] || mimeTypes[type] || 'application/octet-stream'`. -/
def getMimeType (url : String) (type : String) : String :=
  ((mimeLookup (getFileExtension url)).orElse
    (fun _ => mimeLookup type)).getD "application/octet-stream"

/-- Folder choice of the asset loop (line 315). -/
def folderFor (assetType : String) : String :=
  if assetType = "css" then "css"
  else if assetType = "js" then "js"
  else if assetType = "image" then "images"
  else if assetType = "font" then "fonts"
  else "assets"

/-- Embeds `extraction.files.push(file)` (lines 260, 277, 292, 327): the
files sequence grows but `totalFiles`/`totalSize` are left untouched. -/
def pushFile (extraction : ExtractionResult) (f : ExtractedFile) : ExtractionResult :=
  { extraction with files := extraction.files ++ [f] }

/-- Embeds the completion block (lines 336-338): status `completed` and the
one-time recomputation of both totals from the final files sequence. -/
def finalize (extraction : ExtractionResult) : ExtractionResult :=
  { extraction with
    status := "completed",
    totalFiles := extraction.files.length,
    totalSize := sumSizes extraction.files }

/-- Rendering of a raw response Buffer stored directly as `content` (the
duplicate implementation pushes the Buffer object itself); no claim inspects
this value. -/
def bufferString (bytes : List Nat) : String :=
  String.mk (bytes.map (fun b => Char.ofNat b))

/-- Embeds `isValidContent` (lines 101-114) at its only call site (line 312),
where the response was fetched with `responseType: 'arraybuffer'` and is
therefore a Buffer: Buffers (empty included) are truthy, the image/font
branch and the final `Buffer.isBuffer(content)` both hold, and the
string-typed branch is unreachable, so the check always passes. -/
def isValidContent (_bytes : List Nat) (_url : String) : Bool :=
  true

/-- Scan result of the duplicate implementation's root page: `assetRefs`
are the `resolveUrl(url, ref)` outcomes inserted into the `assets` set
(possibly null, since this variant's resolver returns null). -/
structure Page where
  assetRefs : List (Option String)
  inlineScripts : List String
  inlineStyles : List String
  html : String
deriving DecidableEq, Repr

/-- Embeds `Array.from(assets).filter(asset => asset && !asset.startsWith('data:'))`
(line 297): nulls, empty strings and data URLs are dropped. -/
def validAssets (assets : List (Option String)) : List String :=
  (listDedup assets).filterMap (fun o =>
    match o with
    | none => none
    | some s => if (s != "") && !(strStartsWith s "data:") then some s else none)

/-- Embeds one iteration of the duplicate implementation's asset loop
(lines 299-332); `none` models the catch (fetch failure or `new URL`
throwing).  Note `size` is the Buffer length of the response and the raw
Buffer is stored as `content`. -/
def processAsset (fetch : String → Option RawResp) (ids : String → String)
    (assetUrl : String) : Option ExtractedFile :=
  match fetch assetUrl with
  | none => none
  | some resp =>
    let contentType := resp.contentType.getD ""
    if isValidContent resp.bytes assetUrl then
      match urlPathname assetUrl with
      | none => none
      | some pathname =>
        let assetType := getFileType assetUrl (some contentType)
        let popped := (strSplitOnChar '/' pathname).getLastD ""
        let fileName := if popped = "" then
            "asset-" ++ (ids ("p0-asset-name:" ++ assetUrl)).take 8
          else popped
        some { id := ids ("p0-asset-id:" ++ assetUrl),
               name := fileName,
               path := folderFor assetType ++ "/" ++ fileName,
               type := assetType,
               size := resp.bytes.length,
               content := bufferString resp.bytes,
               mimeType := getMimeType assetUrl assetType }
    else none

/-- Embeds one full run of the duplicate implementation's
`extractWebsiteFiles` (lines 194-345) on the freshly created record: set
`processing`, then on root failure the in-function catch sets `failed` with
the error message (totals never recomputed); on success, inline scripts,
inline styles, the optional source page and — only when `includePayloads`
is set — the fetched assets are pushed in order without updating totals,
and completion recomputes the totals once. -/
def extractRun (fetch : String → Option RawResp) (ids : String → String)
    (id url extractedAt : String) (includePayloads includeSourcePage : Bool)
    (root : Except JSError Page) : ExtractionResult :=
  let e0 := createExtractionResult id url extractedAt
  let e1 := { e0 with status := "processing" }
  match root with
  | .error err => { e1 with status := "failed", error := some (jsErrMsg err) }
  | .ok page =>
    let e2 := ((page.inlineScripts.filter (fun s => strTrim s != "")).map
      (mkInlineScriptFile ids)).foldl pushFile e1
    let e3 := ((page.inlineStyles.filter (fun s => strTrim s != "")).map
      (mkInlineStyleFile ids)).foldl pushFile e2
    let e4 := if includeSourcePage then pushFile e3 (mkSourceFile ids page.html) else e3
    let e5 := if includePayloads then
        (validAssets page.assetRefs).foldl
          (fun e u =>
            match processAsset fetch ids u with
            | none => e
            | some f => pushFile e f) e4
      else e4
    finalize e5

end P0

/-! ## Validity predicate and concrete sample inputs

`validAssetUrl` captures the per-asset preconditions under which the only
remaining skip condition in the per-asset closure is a fetch failure: the
URL is nonempty, within the length caps, parseable, and not a data URL.
The `c*` definitions below are concrete fixtures used to instantiate the
claim theorems. -/

def validAssetUrl (u : String) : Prop :=
  u ≠ "" ∧ u.length ≤ 1000 ∧ (urlPathname u).isSome = true ∧
    strStartsWith u "data:" = false

instance (u : String) : Decidable (validAssetUrl u) := by
  unfold validAssetUrl
  infer_instance

def sampleIds : String → String := fun _ => "aaaaaaaa-0000-4000-8000-000000000000"

def c1Env : Env :=
  { fetch := fun u =>
      if u = "http://ex.com/img.png" then
        some { bytes := [137, 80, 78, 71], text := "", contentType := some "image/png" }
      else none,
    apiFetch := fun _ => none,
    cssRefs := fun _ => [],
    ids := sampleIds }

def c1File : ExtractedFile :=
  mkBinaryAssetFile (sampleIds "x") "img.png" "image" (some "image/png") [137, 80, 78, 71]

def c2Entry : ExtractionResult := createExtractionResult "a" "http://ex.com" "t0"

def c2Store : Store := fun j => if j = "a" then some c2Entry else none

def c2File : ExtractedFile :=
  { id := "f1", name := "inline-script-aaaaaaaa.js", path := "js/inline-script-aaaaaaaa.js",
    type := "js", size := 5, content := "alert", mimeType := "application/javascript" }

def c3Env : Env :=
  { fetch := fun u =>
      if u = "http://ex.com/a.css" then
        some { bytes := [], text := "@import url(b.css);", contentType := some "text/css" }
      else if u = "http://ex.com/b.css" then
        some { bytes := [], text := "second-level stylesheet", contentType := some "text/css" }
      else none,
    apiFetch := fun _ => none,
    cssRefs := fun c => if c = "@import url(b.css);" then ["b.css"] else [],
    ids := sampleIds }

def c3Page : Page :=
  { assetRefs := ["http://ex.com/a.css"], inlineScripts := [], inlineStyles := [],
    apiRefs := [], html := "<html></html>" }

def c5Env : Env :=
  { fetch := fun u =>
      if u = "http://ex.com/a.js" then
        some { bytes := [], text := "var a = 1", contentType := some "application/javascript" }
      else if u = "http://ex.com/c.js" then
        some { bytes := [], text := "var c = 3", contentType := some "application/javascript" }
      else none,
    apiFetch := fun _ => none,
    cssRefs := fun _ => [],
    ids := sampleIds }

def c5Page : Page :=
  { assetRefs := ["http://ex.com/a.js", "http://ex.com/b.js", "http://ex.com/c.js"],
    inlineScripts := [], inlineStyles := [], apiRefs := [], html := "<html></html>" }

def c5P0Page : P0.Page :=
  { assetRefs := [some "http://ex.com/a.js", some "http://ex.com/b.js",
      some "http://ex.com/c.js"],
    inlineScripts := [], inlineStyles := [], html := "<html></html>" }

def c6Env : Env :=
  { fetch := fun _ => none, apiFetch := fun _ => none, cssRefs := fun _ => [],
    ids := sampleIds }

def c6Env2 : Env :=
  { fetch := fun _ =>
      some { bytes := [1, 2, 3], text := "other oracle", contentType := none },
    apiFetch := fun _ =>
      some { dataTruthy := true, ctIncludesJson := true, rawJson := "1", wrappedJson := "2" },
    cssRefs := fun _ => ["x.css"],
    ids := sampleIds }

def c6Err : JSError := { message := "timeout of 15000ms exceeded", isError := true }

def c9Page : Page :=
  { assetRefs := [], inlineScripts := ["alert(1)"], inlineStyles := [], apiRefs := [],
    html := "<html></html>" }

def c9P0Page : P0.Page :=
  { assetRefs := [], inlineScripts := [], inlineStyles := [], html := "" }

def c9File : ExtractedFile := mkInlineScriptFile sampleIds "alert(1)"

def c10Entry : ExtractionResult := createExtractionResult "a" "http://ex.com" "t0"

def c10Store : Store := fun j => if j = "a" then some c10Entry else none

def c10Updates : ExtractionUpdates := { status := some "processing" }

def emptyStore : Store := fun _ => none

/-! ## Helper lemmas -/

theorem b64Val_b64Char : ∀ n, n < 64 → b64Val (b64Char n) = n := by decide

theorem b64Char_ne_eq : ∀ n, n < 64 → b64Char n ≠ '=' := by decide

/-- Base64 round trip: decoding the encoding of a byte list (all bytes < 256)
returns the original bytes. -/
theorem b64_roundtrip : ∀ (l : List Nat), (∀ b ∈ l, b < 256) →
    b64decodeList (b64encodeList l) = l
  | [], _ => rfl
  | [a], h => by
    have ha : a < 256 := h a (by simp)
    have h1 : a / 4 < 64 := by omega
    have h2 : a % 4 * 16 < 64 := by omega
    simp only [b64encodeList, b64decodeList, if_true]
    rw [b64Val_b64Char _ h1, b64Val_b64Char _ h2]
    congr 1
    omega
  | [a, b], h => by
    have ha : a < 256 := h a (by simp)
    have hb : b < 256 := h b (by simp)
    have h1 : a / 4 < 64 := by omega
    have h2 : a % 4 * 16 + b / 16 < 64 := by omega
    have h3 : b % 16 * 4 < 64 := by omega
    simp only [b64encodeList, b64decodeList, if_neg (b64Char_ne_eq _ h3), if_true]
    rw [b64Val_b64Char _ h1, b64Val_b64Char _ h2, b64Val_b64Char _ h3]
    congr 1
    · omega
    · congr 1
      omega
  | a :: b :: c :: rest, h => by
    have ha : a < 256 := h a (by simp)
    have hb : b < 256 := h b (by simp)
    have hc : c < 256 := h c (by simp)
    have h1 : a / 4 < 64 := by omega
    have h2 : a % 4 * 16 + b / 16 < 64 := by omega
    have h3 : b % 16 * 4 + c / 64 < 64 := by omega
    have h4 : c % 64 < 64 := by omega
    have ih := b64_roundtrip rest (fun x hx => h x (by simp [hx]))
    simp only [b64encodeList, b64decodeList, if_neg (b64Char_ne_eq _ h3),
      if_neg (b64Char_ne_eq _ h4)]
    rw [b64Val_b64Char _ h1, b64Val_b64Char _ h2, b64Val_b64Char _ h3, b64Val_b64Char _ h4, ih]
    congr 1
    · omega
    · congr 1
      · omega
      · congr 1
        omega

theorem strData_append (s t : String) : (s ++ t).data = s.data ++ t.data := rfl

theorem mem_strData_append {c : Char} {s t : String} :
    c ∈ (s ++ t).data ↔ c ∈ s.data ∨ c ∈ t.data := by
  rw [strData_append]
  exact List.mem_append

/-- The batch loop appends exactly the per-asset results of the URL list it
iterates over, in order; the evolving `assets` set never feeds back into it. -/
theorem runAssetLoop_files (env : Env) :
    ∀ (arr : List String) (st : AssetLoopState),
      (runAssetLoop env arr st).files =
        st.files ++ arr.filterMap (fun u => (processAsset env u).1)
  | [], st => by simp [runAssetLoop]
  | u :: rest, st => by
    rw [runAssetLoop, runAssetLoop_files env rest]
    cases h : (processAsset env u).1 <;>
      simp [List.filterMap_cons, h, Option.toList]

/-- Monotonicity of JS-Set insertion: present elements stay present. -/
theorem listSetAddAll_mono {x : String} :
    ∀ (ys l : List String), x ∈ l → x ∈ listSetAddAll l ys
  | [], _, h => h
  | y :: ys, l, h => by
    refine listSetAddAll_mono ys (listSetAdd l y) ?_
    unfold listSetAdd
    split
    · exact h
    · exact List.mem_append_left _ h

/-- Inserting a list of elements into a JS Set makes them all members. -/
theorem listSetAddAll_mem {x : String} :
    ∀ (xs l : List String), x ∈ xs → x ∈ listSetAddAll l xs
  | y :: ys, l, h => by
    rcases List.mem_cons.mp h with h | h
    · subst h
      refine listSetAddAll_mono ys (listSetAdd l x) ?_
      unfold listSetAdd
      by_cases hc : l.contains x
      · rw [if_pos hc]
        exact List.mem_of_elem_eq_true hc
      · rw [if_neg hc]
        exact List.mem_append_right _ (by simp)
    · exact listSetAddAll_mem ys (listSetAdd l y) h

/-- The batch loop leaves the `assets` set it threads through monotone:
everything initially present is still present at the end. -/
theorem runAssetLoop_assets_mono (env : Env) :
    ∀ (arr : List String) (st : AssetLoopState) (x : String),
      x ∈ st.assets → x ∈ (runAssetLoop env arr st).assets
  | [], _, _, hx => hx
  | u :: rest, st, x, hx => by
    rw [runAssetLoop]
    exact runAssetLoop_assets_mono env rest _ x (listSetAddAll_mono _ _ hx)

theorem mkInlineScriptFile_path_slash (ids : String → String) (c : String) :
    '/' ∈ (mkInlineScriptFile ids c).path.data := by
  show '/' ∈ ("js/" ++ ("inline-script-" ++ (ids ("script-name:" ++ c)).take 8 ++ ".js")).data
  rw [mem_strData_append]
  left
  decide

theorem mkInlineStyleFile_path_slash (ids : String → String) (c : String) :
    '/' ∈ (mkInlineStyleFile ids c).path.data := by
  show '/' ∈ ("css/" ++ ("inline-style-" ++ (ids ("style-name:" ++ c)).take 8 ++ ".css")).data
  rw [mem_strData_append]
  left
  decide

theorem mkBinaryAssetFile_path_slash (fid n t : String) (ct : Option String)
    (bytes : List Nat) : '/' ∈ (mkBinaryAssetFile fid n t ct bytes).path.data := by
  show '/' ∈ (getFolderPath t ++ "/" ++ n).data
  rw [mem_strData_append]
  left
  rw [mem_strData_append]
  right
  decide

theorem mkTextAssetFile_path_slash (fid n t : String) (ct : Option String)
    (text : String) : '/' ∈ (mkTextAssetFile fid n t ct text).path.data := by
  show '/' ∈ (getFolderPath t ++ "/" ++ n).data
  rw [mem_strData_append]
  left
  rw [mem_strData_append]
  right
  decide

theorem mkPayloadFile_path_slash (ids : String → String) (n : Nat) (r : ApiResp) :
    '/' ∈ (mkPayloadFile ids n r).path.data := by
  show '/' ∈ ("payloads/" ++ ("api-response-" ++ toString n ++ ".json")).data
  rw [mem_strData_append]
  left
  decide

theorem processAsset_path_slash (env : Env) (u : String) (f : ExtractedFile)
    (h : (processAsset env u).1 = some f) : '/' ∈ f.path.data := by
  unfold processAsset at h
  split at h
  · simp at h
  · split at h
    · simp at h
    · split at h
      · simp at h
      · split at h
        · simp at h
        · dsimp only at h
          split at h
          · simp only [Option.some.injEq] at h
            subst h
            exact mkBinaryAssetFile_path_slash _ _ _ _ _
          · simp only [Option.some.injEq] at h
            subst h
            exact mkTextAssetFile_path_slash _ _ _ _ _

theorem runPayloadProbe_path_slash (env : Env) (urls : List String) (f : ExtractedFile)
    (h : f ∈ runPayloadProbe env urls) : '/' ∈ f.path.data := by
  have key : ∀ (us : List String) (acc : List ExtractedFile × Nat),
      (∀ g ∈ acc.1, '/' ∈ g.path.data) →
      ∀ g ∈ (us.foldl
        (fun (a : List ExtractedFile × Nat) apiUrl =>
          match env.apiFetch apiUrl with
          | none => a
          | some r =>
            if r.dataTruthy && r.ctIncludesJson then
              (a.1 ++ [mkPayloadFile env.ids (a.2 + 1) r], a.2 + 1)
            else a) acc).1, '/' ∈ g.path.data := by
    intro us
    induction us with
    | nil => intro acc hacc g hg; exact hacc g hg
    | cons v vs ih =>
      intro acc hacc g hg
      refine ih _ ?_ g hg
      cases henv : env.apiFetch v with
      | none => simpa [henv] using hacc
      | some r =>
        by_cases hr : r.dataTruthy && r.ctIncludesJson
        · simp only [henv, hr, if_true]
          intro x hx
          rcases List.mem_append.mp hx with hx | hx
          · exact hacc x hx
          · rcases List.mem_singleton.mp hx with rfl
            exact mkPayloadFile_path_slash _ _ _
        · simpa [henv, hr] using hacc
  exact key urls ([], 0) (by intro g hg; cases hg) f h

theorem slash_mem_mid (a b : String) : '/' ∈ (a ++ "/" ++ b).data := by
  rw [mem_strData_append]
  left
  rw [mem_strData_append]
  right
  decide

/-- Folding `extraction.files.push` appends exactly the pushed files. -/
theorem P0.pushFile_foldl_files :
    ∀ (l : List ExtractedFile) (e : ExtractionResult),
      (l.foldl P0.pushFile e).files = e.files ++ l
  | [], e => by simp
  | f :: fs, e => by
    rw [List.foldl_cons, P0.pushFile_foldl_files fs]
    simp [P0.pushFile]

/-- The duplicate implementation's asset loop pushes exactly the per-asset
results, in order. -/
theorem P0.assetFold_files (fetch : String → Option RawResp) (ids : String → String) :
    ∀ (l : List String) (e : ExtractionResult),
      (l.foldl
        (fun e u =>
          match P0.processAsset fetch ids u with
          | none => e
          | some f => P0.pushFile e f) e).files =
      e.files ++ l.filterMap (P0.processAsset fetch ids)
  | [], e => by simp
  | u :: us, e => by
    rw [List.foldl_cons, P0.assetFold_files fetch ids us]
    cases h : P0.processAsset fetch ids u <;> simp [h, P0.pushFile]

theorem P0.asset_path_slash (fetch : String → Option RawResp)
    (ids : String → String) (u : String) (f : ExtractedFile)
    (h : P0.processAsset fetch ids u = some f) : '/' ∈ f.path.data := by
  unfold P0.processAsset at h
  split at h
  · simp at h
  · split at h
    · split at h
      · simp at h
      · dsimp only at h
        simp only [Option.some.injEq] at h
        subst h
        exact slash_mem_mid _ _
    · simp at h

theorem mkSourceFile_path (ids : String → String) (content : String) :
    (mkSourceFile ids content).path = "index.html" := rfl

/-- Files of a successful routes.ts run, fully characterized: inline
scripts, inline styles, the optional source page, the per-asset results of
the snapshot taken at `Array.from(assets)`, and the payload files. -/
theorem extractRun_ok_files (env : Env) (id url extractedAt : String)
    (ip isp : Bool) (page : Page) :
    (extractRun env id url extractedAt ip isp (.ok page)).files =
      inlineScriptFiles env.ids page ++ inlineStyleFiles env.ids page ++
      (if isp then [mkSourceFile env.ids page.html] else []) ++
      (listDedup page.assetRefs).filterMap (fun u => (processAsset env u).1) ++
      (if ip then runPayloadProbe env (probeUrls url page) else []) := by
  show (inlineScriptFiles env.ids page ++ inlineStyleFiles env.ids page) ++
      (if isp then [mkSourceFile env.ids page.html] else []) ++
      (runAssetLoop env (listDedup page.assetRefs)
        { assets := listDedup page.assetRefs, files := [] }).files ++
      (if ip then runPayloadProbe env (probeUrls url page) else []) = _
  rw [runAssetLoop_files]
  simp [List.append_assoc]

theorem extractRun_ok_status (env : Env) (id url extractedAt : String)
    (ip isp : Bool) (page : Page) :
    (extractRun env id url extractedAt ip isp (.ok page)).status = "completed" := rfl

/-- Files of a successful run of the duplicate implementation. -/
theorem P0.run_ok_files (fetch : String → Option RawResp)
    (ids : String → String) (id url extractedAt : String)
    (ip isp : Bool) (page : P0.Page) :
    (P0.extractRun fetch ids id url extractedAt ip isp (.ok page)).files =
      ((page.inlineScripts.filter (fun s => strTrim s != "")).map (mkInlineScriptFile ids)) ++
      ((page.inlineStyles.filter (fun s => strTrim s != "")).map (mkInlineStyleFile ids)) ++
      (if isp then [mkSourceFile ids page.html] else []) ++
      (if ip then (P0.validAssets page.assetRefs).filterMap (P0.processAsset fetch ids)
       else []) := by
  have hpush : ∀ (e : ExtractionResult) (f : ExtractedFile),
      (P0.pushFile e f).files = e.files ++ [f] := fun _ _ => rfl
  have hfin : ∀ (e : ExtractionResult), (P0.finalize e).files = e.files := fun _ => rfl
  cases isp <;> cases ip <;>
    simp [P0.extractRun, hfin, P0.assetFold_files, P0.pushFile_foldl_files, hpush,
      createExtractionResult, List.append_assoc]

theorem P0.run_ok_status (fetch : String → Option RawResp)
    (ids : String → String) (id url extractedAt : String)
    (ip isp : Bool) (page : P0.Page) :
    (P0.extractRun fetch ids id url extractedAt ip isp (.ok page)).status = "completed" := rfl

/-! ## Claim theorems -/

/-- C9: with `includeSourcePage = false`, no file in the final `files`
sequence of either implementation has path `index.html`, whatever the
oracles (page contents, fetch outcomes) and whatever `includePayloads` is:
inline files live under `js/`/`css/`, fetched assets under their category
folder, payload files under `payloads/`, so every other path contains a
slash while `index.html` contains none (and a failed run has no files). -/
theorem C9_no_index_html_when_source_excluded (env : Env)
    (fetch : String → Option RawResp) (ids : String → String)
    (id url extractedAt : String) (ip : Bool)
    (root : Except JSError Page) (root0 : Except JSError P0.Page) :
    (∀ f ∈ (extractRun env id url extractedAt ip false root).files,
      f.path ≠ "index.html") ∧
    (∀ f ∈ (P0.extractRun fetch ids id url extractedAt ip false root0).files,
      f.path ≠ "index.html") := by
  have noslash : ¬ ('/' ∈ "index.html".data) := by decide
  have ofSlash : ∀ f : ExtractedFile, '/' ∈ f.path.data → f.path ≠ "index.html" := by
    intro f hf heq
    rw [heq] at hf
    exact noslash hf
  constructor
  · cases root with
    | error err =>
      intro f hf
      simp [extractRun, createExtractionResult] at hf
    | ok page =>
      intro f hf
      rw [extractRun_ok_files] at hf
      refine ofSlash f ?_
      rcases List.mem_append.mp hf with hf | hf
      · rcases List.mem_append.mp hf with hf | hf
        · rcases List.mem_append.mp hf with hf | hf
          · rcases List.mem_append.mp hf with hf | hf
            · rcases List.mem_map.mp hf with ⟨c, _, rfl⟩
              exact mkInlineScriptFile_path_slash _ _
            · rcases List.mem_map.mp hf with ⟨c, _, rfl⟩
              exact mkInlineStyleFile_path_slash _ _
          · simp at hf
        · rcases List.mem_filterMap.mp hf with ⟨u, _, hu⟩
          exact processAsset_path_slash env u f hu
      · cases ip with
        | true => exact runPayloadProbe_path_slash env _ f (by simpa using hf)
        | false => simp at hf
  · cases root0 with
    | error err =>
      intro f hf
      simp [P0.extractRun, createExtractionResult] at hf
    | ok page =>
      intro f hf
      rw [P0.run_ok_files] at hf
      refine ofSlash f ?_
      rcases List.mem_append.mp hf with hf | hf
      · rcases List.mem_append.mp hf with hf | hf
        · rcases List.mem_append.mp hf with hf | hf
          · rcases List.mem_map.mp hf with ⟨c, _, rfl⟩
            exact mkInlineScriptFile_path_slash _ _
          · rcases List.mem_map.mp hf with ⟨c, _, rfl⟩
            exact mkInlineStyleFile_path_slash _ _
        · simp at hf
      · cases ip with
        | true =>
          rcases List.mem_filterMap.mp (by simpa using hf) with ⟨u, _, hu⟩
          exact P0.asset_path_slash fetch ids u f hu
        | false => simp at hf

/-- Witness for C9 at a concrete run with one inline script. -/
theorem C9_witness :
    c9File ∈ (extractRun c1Env "i" "http://ex.com" "t0" false false (.ok c9Page)).files ∧
    c9File.path ≠ "index.html" :=
  ⟨by decide,
   (C9_no_index_html_when_source_excluded c1Env c1Env.fetch sampleIds "i" "http://ex.com"
     "t0" false (.ok c9Page) (.ok c9P0Page)).1 c9File (by decide)⟩

/-- C6: a root-page fetch failure ends the extraction in status `failed`
with the thrown error's message (non-empty whenever the thrown value is an
`Error` with a non-empty message, as axios rejections are) and an empty
`files` sequence; nothing else of the pipeline runs — the result is
independent of the asset-fetch, CSS-scan and payload oracles. -/
theorem C6_root_failure (env env2 : Env) (id url extractedAt : String)
    (ip isp : Bool) (err : JSError)
    (hmsg : err.isError = true → err.message ≠ "") :
    (extractRun env id url extractedAt ip isp (.error err)).status = "failed" ∧
    (∃ m, (extractRun env id url extractedAt ip isp (.error err)).error = some m ∧ m ≠ "") ∧
    (extractRun env id url extractedAt ip isp (.error err)).files = [] ∧
    extractRun env id url extractedAt ip isp (.error err) =
      extractRun env2 id url extractedAt ip isp (.error err) := by
  refine ⟨rfl, ⟨jsErrMsg err, rfl, ?_⟩, rfl, rfl⟩
  unfold jsErrMsg
  by_cases hE : err.isError = true
  · rw [if_pos hE]
    exact hmsg hE
  · rw [if_neg hE]
    decide

/-- Witness for C6 at a concrete axios timeout error. -/
theorem C6_witness :
    (c6Err.isError = true → c6Err.message ≠ "") ∧
    ((extractRun c6Env "i" "http://ex.com" "t0" true true (.error c6Err)).status = "failed" ∧
     (∃ m, (extractRun c6Env "i" "http://ex.com" "t0" true true (.error c6Err)).error =
        some m ∧ m ≠ "") ∧
     (extractRun c6Env "i" "http://ex.com" "t0" true true (.error c6Err)).files = [] ∧
     extractRun c6Env "i" "http://ex.com" "t0" true true (.error c6Err) =
       extractRun c6Env2 "i" "http://ex.com" "t0" true true (.error c6Err)) :=
  ⟨fun _ => by decide,
   C6_root_failure c6Env c6Env2 "i" "http://ex.com" "t0" true true c6Err (fun _ => by decide)⟩

/-- Under the validity preconditions, a routes.ts per-asset step produces a
file exactly when the fetch succeeds. -/
theorem processAsset_fetch_iff (env : Env) (u : String) (h : validAssetUrl u) :
    (processAsset env u).1.isSome = (env.fetch u).isSome := by
  obtain ⟨hne, hlen, hpath, hdata⟩ := h
  have h1 : ¬(u = "" ∨ u.length > 2000) := by
    push_neg
    refine ⟨hne, by omega⟩
  have h2 : ¬(strStartsWith u "data:" = true ∨ u.length > 1000) := by
    push_neg
    refine ⟨by simp [hdata], by omega⟩
  obtain ⟨p, hp⟩ := Option.isSome_iff_exists.mp hpath
  unfold processAsset
  rw [if_neg h1]
  have hfn : ∃ fn, assetFileName env.ids u = some fn := by
    unfold assetFileName
    rw [hp]
    exact ⟨_, rfl⟩
  obtain ⟨fn, hfn⟩ := hfn
  simp only [hfn]
  rw [if_neg h2]
  cases hf : env.fetch u <;> simp [hf]

/-- Under URL parseability, a duplicate-implementation per-asset step
produces a file exactly when the fetch succeeds (the content-validity check
always passes for Buffer responses). -/
theorem P0.asset_fetch_iff (fetch0 : String → Option RawResp)
    (ids0 : String → String) (u : String) (h : (urlPathname u).isSome = true) :
    (P0.processAsset fetch0 ids0 u).isSome = (fetch0 u).isSome := by
  obtain ⟨p, hp⟩ := Option.isSome_iff_exists.mp h
  unfold P0.processAsset
  cases hf : fetch0 u with
  | none => rfl
  | some resp => simp [P0.isValidContent, hp]

/-- C5: per-asset failure isolation.  When the root fetch succeeds, both
implementations always finish with status `completed`, whatever the fetch
oracle does; the asset-derived files are exactly the per-asset results over
the (deduplicated) discovered URL list; and for every discovered URL that
passes the validity checks, a file is produced precisely when its fetch
succeeds — so one failing asset leaves the others in `files`. -/
theorem C5_asset_failures_isolated (env : Env) (fetch0 : String → Option RawResp)
    (ids0 : String → String) (id url extractedAt : String)
    (ip isp ip0 isp0 : Bool) (page : Page) (page0 : P0.Page)
    (hvalid : ∀ u ∈ listDedup page.assetRefs, validAssetUrl u)
    (hvalid0 : ∀ u ∈ P0.validAssets page0.assetRefs, (urlPathname u).isSome = true) :
    (extractRun env id url extractedAt ip isp (.ok page)).status = "completed" ∧
    (extractRun env id url extractedAt ip isp (.ok page)).files =
      inlineScriptFiles env.ids page ++ inlineStyleFiles env.ids page ++
      (if isp then [mkSourceFile env.ids page.html] else []) ++
      (listDedup page.assetRefs).filterMap (fun u => (processAsset env u).1) ++
      (if ip then runPayloadProbe env (probeUrls url page) else []) ∧
    (∀ u ∈ listDedup page.assetRefs,
      (processAsset env u).1.isSome = (env.fetch u).isSome) ∧
    (P0.extractRun fetch0 ids0 id url extractedAt ip0 isp0 (.ok page0)).status = "completed" ∧
    (P0.extractRun fetch0 ids0 id url extractedAt ip0 isp0 (.ok page0)).files =
      ((page0.inlineScripts.filter (fun s => strTrim s != "")).map (mkInlineScriptFile ids0)) ++
      ((page0.inlineStyles.filter (fun s => strTrim s != "")).map (mkInlineStyleFile ids0)) ++
      (if isp0 then [mkSourceFile ids0 page0.html] else []) ++
      (if ip0 then (P0.validAssets page0.assetRefs).filterMap (P0.processAsset fetch0 ids0)
       else []) ∧
    (∀ u ∈ P0.validAssets page0.assetRefs,
      (P0.processAsset fetch0 ids0 u).isSome = (fetch0 u).isSome) := by
  refine ⟨rfl, extractRun_ok_files env id url extractedAt ip isp page,
    fun u hu => processAsset_fetch_iff env u (hvalid u hu),
    rfl, P0.run_ok_files fetch0 ids0 id url extractedAt ip0 isp0 page0,
    fun u hu => P0.asset_fetch_iff fetch0 ids0 u (hvalid0 u hu)⟩

/-- Witness for C5: three linked scripts, the middle fetch returning a
failure — the run completes and exactly the two successful assets appear. -/
theorem C5_witness :
    (∀ u ∈ listDedup c5Page.assetRefs, validAssetUrl u) ∧
    (∀ u ∈ P0.validAssets c5P0Page.assetRefs, (urlPathname u).isSome = true) ∧
    ((extractRun c5Env "i" "http://ex.com" "t0" false false (.ok c5Page)).status =
      "completed" ∧
     (extractRun c5Env "i" "http://ex.com" "t0" false false (.ok c5Page)).files =
      inlineScriptFiles c5Env.ids c5Page ++ inlineStyleFiles c5Env.ids c5Page ++
      (if false then [mkSourceFile c5Env.ids c5Page.html] else []) ++
      (listDedup c5Page.assetRefs).filterMap (fun u => (processAsset c5Env u).1) ++
      (if false then runPayloadProbe c5Env (probeUrls "http://ex.com" c5Page) else []) ∧
     (∀ u ∈ listDedup c5Page.assetRefs,
       (processAsset c5Env u).1.isSome = (c5Env.fetch u).isSome) ∧
     (P0.extractRun c5Env.fetch sampleIds "i" "http://ex.com" "t0" true false
       (.ok c5P0Page)).status = "completed" ∧
     (P0.extractRun c5Env.fetch sampleIds "i" "http://ex.com" "t0" true false
       (.ok c5P0Page)).files =
      ((c5P0Page.inlineScripts.filter (fun s => strTrim s != "")).map
        (mkInlineScriptFile sampleIds)) ++
      ((c5P0Page.inlineStyles.filter (fun s => strTrim s != "")).map
        (mkInlineStyleFile sampleIds)) ++
      (if false then [mkSourceFile sampleIds c5P0Page.html] else []) ++
      (if true then (P0.validAssets c5P0Page.assetRefs).filterMap
        (P0.processAsset c5Env.fetch sampleIds) else []) ∧
     (∀ u ∈ P0.validAssets c5P0Page.assetRefs,
       (P0.processAsset c5Env.fetch sampleIds u).isSome = (c5Env.fetch u).isSome)) :=
  ⟨by decide, by decide,
   C5_asset_failures_isolated c5Env c5Env.fetch sampleIds "i" "http://ex.com" "t0"
     false false true false c5Page c5P0Page (by decide) (by decide)⟩

theorem listSetAddAll_sub [BEq α] :
    ∀ (xs l : List α) (x : α), x ∈ listSetAddAll l xs → x ∈ l ∨ x ∈ xs
  | [], _, _, h => Or.inl h
  | y :: ys, l, x, h => by
    rcases listSetAddAll_sub ys (listSetAdd l y) x h with h | h
    · unfold listSetAdd at h
      split at h
      · exact Or.inl h
      · rcases List.mem_append.mp h with h | h
        · exact Or.inl h
        · simp only [List.mem_singleton] at h
          subst h
          exact Or.inr (by simp)
    · exact Or.inr (List.mem_cons_of_mem _ h)

theorem listDedup_sub [BEq α] (l : List α) (x : α) (h : x ∈ listDedup l) : x ∈ l := by
  rcases listSetAddAll_sub l [] x h with h | h
  · cases h
  · exact h

/-- Counterexample for C3 at the fixture chain: stylesheet `a.css` is
fetched and its reference `b.css` is resolved and unioned into the live
asset set — and `b.css` would fetch successfully — yet the completed run
contains no file for it, refuting that stylesheet-discovered URLs are
fetched in a later batch of the same run. -/
theorem C3_counterexample :
    ((extractRun c3Env "i" "http://ex.com" "t0" false false (.ok c3Page)).files.any
      (fun f => f.name == "a.css")) = true ∧
    ((extractRun c3Env "i" "http://ex.com" "t0" false false (.ok c3Page)).files.all
      (fun f => f.name != "b.css")) = true ∧
    (extractRun c3Env "i" "http://ex.com" "t0" false false (.ok c3Page)).status =
      "completed" ∧
    "http://ex.com/b.css" ∈ (runAssetLoop c3Env (listDedup c3Page.assetRefs)
      { assets := listDedup c3Page.assetRefs, files := [] }).assets ∧
    (c3Env.fetch "http://ex.com/b.css").isSome = true := by decide

/-- C3 (amended): URLs found in fetched stylesheets are resolved against the
stylesheet URL and unioned into the live asset set, which only grows, but
the batch loop iterates over the snapshot `Array.from(assets)` taken before
the first batch, so the files produced by the batch stage are exactly the
per-asset results over that snapshot — stylesheet-discovered URLs are never
fetched in the same run, at any recursion depth. -/
theorem C3_css_discoveries_never_fetched (env : Env) :
    (∀ (arr : List String) (st : AssetLoopState),
      (runAssetLoop env arr st).files =
        st.files ++ arr.filterMap (fun u => (processAsset env u).1)) ∧
    (∀ (arr : List String) (st : AssetLoopState) (x : String),
      x ∈ st.assets → x ∈ (runAssetLoop env arr st).assets) ∧
    (∀ (id url extractedAt : String) (ip isp : Bool) (page : Page),
      (extractRun env id url extractedAt ip isp (.ok page)).files =
        inlineScriptFiles env.ids page ++ inlineStyleFiles env.ids page ++
        (if isp then [mkSourceFile env.ids page.html] else []) ++
        (listDedup page.assetRefs).filterMap (fun u => (processAsset env u).1) ++
        (if ip then runPayloadProbe env (probeUrls url page) else [])) :=
  ⟨runAssetLoop_files env, runAssetLoop_assets_mono env,
   fun id url extractedAt ip isp page =>
     extractRun_ok_files env id url extractedAt ip isp page⟩

/-- Witness for C3's amended statement at the fixture. -/
theorem C3_witness :
    "http://ex.com/a.css" ∈
      ({ assets := ["http://ex.com/a.css"], files := [] } : AssetLoopState).assets ∧
    "http://ex.com/a.css" ∈ (runAssetLoop c3Env ["http://ex.com/a.css"]
      { assets := ["http://ex.com/a.css"], files := [] }).assets :=
  ⟨by decide,
   (C3_css_discoveries_never_fetched c3Env).2.1 ["http://ex.com/a.css"]
     { assets := ["http://ex.com/a.css"], files := [] } "http://ex.com/a.css" (by decide)⟩

/-- Counterexample for C1: a 4-byte PNG flowing through the per-asset stage
is stored with `size = 4` (the raw byte count) while the stored `content`
is the 30-byte data-URI string, so `size` differs from the byte length of
the content as stored. -/
theorem C1_counterexample :
    (processAsset c1Env "http://ex.com/img.png").1 = some c1File ∧
    c1File.size = 4 ∧
    utf8Len c1File.content = 30 ∧
    c1File.size ≠ utf8Len c1File.content := by decide

/-- C1 (amended): `size` equals the stored byte length of `content` for
inline-script, inline-style, source-page and text-asset files; for binary
assets `size` is the byte count of the raw (pre-encoding) response body,
not of the stored data-URI string; for payload files `size` is the byte
length of the bare `JSON.stringify(data)` while `content` stores the
pretty-printed metadata wrapper. -/
theorem C1_size_semantics (ids : String → String) (c html fid name t text : String)
    (ct : Option String) (bytes : List Nat) (n : Nat) (r : ApiResp) :
    (mkInlineScriptFile ids c).size = utf8Len (mkInlineScriptFile ids c).content ∧
    (mkInlineStyleFile ids c).size = utf8Len (mkInlineStyleFile ids c).content ∧
    (mkSourceFile ids html).size = utf8Len (mkSourceFile ids html).content ∧
    (mkTextAssetFile fid name t ct text).size =
      utf8Len (mkTextAssetFile fid name t ct text).content ∧
    (mkBinaryAssetFile fid name t ct bytes).size = bytes.length ∧
    (mkPayloadFile ids n r).size = utf8Len r.rawJson ∧
    (mkPayloadFile ids n r).content = r.wrappedJson :=
  ⟨rfl, rfl, rfl, rfl, rfl, rfl, rfl⟩

/-- Counterexample for C2: the duplicate implementation's in-loop
`files.push` leaves the totals stale — after the push the record has one
file of size 5 but `totalFiles = 0` and `totalSize = 0`. -/
theorem C2_counterexample :
    (P0.pushFile c2Entry c2File).files.length = 1 ∧
    (P0.pushFile c2Entry c2File).totalFiles = 0 ∧
    sumSizes (P0.pushFile c2Entry c2File).files = 5 ∧
    (P0.pushFile c2Entry c2File).totalSize = 0 ∧
    (P0.pushFile c2Entry c2File).totalFiles ≠
      (P0.pushFile c2Entry c2File).files.length := by decide

/-- C2 (amended): every append through `MemStorage.addFileToExtraction`
recomputes `totalFiles`/`totalSize` from the full sequence, so the stored
record satisfies the invariant after every such mutation; the duplicate
implementation's pushes do not update totals, and only its one-time
completion step re-establishes the invariant. -/
theorem C2_totals_recomputed (store : Store) (eid : String) (f : ExtractedFile)
    (e : ExtractionResult) (h : store eid = some e) :
    (∃ e2, addFileToExtraction store eid f = .ok (updStore store eid e2) ∧
      e2.totalFiles = e2.files.length ∧ e2.totalSize = sumSizes e2.files ∧
      e2.files = e.files ++ [f]) ∧
    (∀ e3 : ExtractionResult,
      (P0.finalize e3).totalFiles = (P0.finalize e3).files.length ∧
      (P0.finalize e3).totalSize = sumSizes (P0.finalize e3).files) := by
  constructor
  · refine ⟨{ e with
      files := e.files ++ [f],
      totalFiles := (e.files ++ [f]).length,
      totalSize := sumSizes (e.files ++ [f]) }, ?_, rfl, rfl, rfl⟩
    unfold addFileToExtraction
    rw [h]
  · intro e3
    exact ⟨rfl, rfl⟩

/-- Witness for C2's amended statement at a concrete one-entry store. -/
theorem C2_witness :
    c2Store "a" = some c2Entry ∧
    (∃ e2, addFileToExtraction c2Store "a" c2File = .ok (updStore c2Store "a" e2) ∧
      e2.totalFiles = e2.files.length ∧ e2.totalSize = sumSizes e2.files ∧
      e2.files = c2Entry.files ++ [c2File]) ∧
    (∀ e3 : ExtractionResult,
      (P0.finalize e3).totalFiles = (P0.finalize e3).files.length ∧
      (P0.finalize e3).totalSize = sumSizes (P0.finalize e3).files) :=
  ⟨by decide, (C2_totals_recomputed c2Store "a" c2File c2Entry (by decide)).1,
   (C2_totals_recomputed c2Store "a" c2File c2Entry (by decide)).2⟩

/-- Counterexample for C4: on the unparseable pair (base `x`, reference
`y`) the URL constructor fails, the duplicate implementation's resolver
returns null — but the routes.ts resolver returns the reference string
itself, a non-null value for unparseable input. -/
theorem C4_counterexample :
    urlResolve "y" "x" = none ∧
    resolveUrl "x" "y" = "y" ∧
    P0.resolveUrl "x" "y" = none := by decide

/-- C4 (amended): on an unparseable reference the duplicate implementation's
resolver returns null and its caller filters nulls out of the asset list,
while the routes.ts resolver returns the reference unchanged (never null);
the routes.ts per-asset stage still skips such a reference (URL parsing
throws inside the per-asset try/catch), so neither variant fails the batch. -/
theorem C4_resolver_failure_behaviour (base rel : String)
    (h : urlResolve rel base = none) :
    P0.resolveUrl base rel = none ∧
    resolveUrl base rel = rel ∧
    (∀ env : Env, processAsset env rel = (none, [])) ∧
    (∀ (assets : List (Option String)) (s : String),
      s ∈ P0.validAssets assets → some s ∈ assets) := by
  have hpath : urlPathname rel = none := by
    unfold urlResolve at h
    unfold urlPathname
    cases hh : urlHostPath rel with
    | none => rfl
    | some v =>
      rw [hh] at h
      simp at h
  refine ⟨h, ?_, ?_, ?_⟩
  · unfold resolveUrl
    rw [h]
    rfl
  · intro env
    by_cases hc : rel = "" ∨ rel.length > 2000
    · unfold processAsset
      rw [if_pos hc]
    · unfold processAsset
      rw [if_neg hc]
      have hafn : assetFileName env.ids rel = none := by
        unfold assetFileName
        rw [hpath]
      simp [hafn]
  · intro assets s hs
    unfold P0.validAssets at hs
    rcases List.mem_filterMap.mp hs with ⟨o, ho, hfo⟩
    have hoo := listDedup_sub assets o ho
    cases o with
    | none => simp at hfo
    | some v =>
      dsimp only at hfo
      by_cases hv : (v != "") && !(strStartsWith v "data:")
      · rw [if_pos hv] at hfo
        simp only [Option.some.injEq] at hfo
        subst hfo
        exact hoo
      · rw [if_neg hv] at hfo
        cases hfo

/-- Witness for C4's amended statement at the concrete failing pair. -/
theorem C4_witness :
    urlResolve "y" "x" = none ∧
    (P0.resolveUrl "x" "y" = none ∧
     resolveUrl "x" "y" = "y" ∧
     (∀ env : Env, processAsset env "y" = (none, [])) ∧
     (∀ (assets : List (Option String)) (s : String),
       s ∈ P0.validAssets assets → some s ∈ assets)) :=
  ⟨by decide, C4_resolver_failure_behaviour "x" "y" (by decide)⟩

/-- Counterexample for C7: the duplicate implementation's classifier maps a
`.woff` URL to category `font`, which is outside the claimed category set
`{html, css, js, image, payload, other}` (and is foldered under `fonts`,
outside the claimed folder map). -/
theorem C7_counterexample :
    P0.getFileType "https://ex.com/f.woff" none = "font" ∧
    ¬ ("font" ∈ (["html", "css", "js", "image", "payload", "other"] : List String)) ∧
    P0.folderFor "font" = "fonts" := by decide

/-- C7 (amended): both classifiers are total pure functions.  The routes.ts
classifier always yields a category in `{html, css, js, image, payload,
other}`, with folders css→css, js→js, image→images, payload→payloads and
assets for everything else; the duplicate implementation's classifier
ranges over the larger set `{html, css, js, image, font, json, xml,
other}`, with `font` foldered under `fonts`. -/
theorem C7_classifier_total :
    (∀ fileName : String,
      getFileType fileName ∈ ["html", "css", "js", "image", "payload", "other"]) ∧
    getFolderPath "css" = "css" ∧
    getFolderPath "js" = "js" ∧
    getFolderPath "image" = "images" ∧
    getFolderPath "payload" = "payloads" ∧
    getFolderPath "html" = "assets" ∧
    getFolderPath "other" = "assets" ∧
    (∀ (url : String) (mt : Option String),
      P0.getFileType url mt ∈
        ["html", "css", "js", "image", "font", "json", "xml", "other"]) ∧
    P0.folderFor "font" = "fonts" := by
  have hext : ∀ e : String,
      P0.extSwitch e ∈ ["html", "css", "js", "image", "font", "json", "xml", "other"] := by
    intro e
    unfold P0.extSwitch
    split <;> decide
  refine ⟨?_, rfl, rfl, rfl, rfl, rfl, rfl, ?_, rfl⟩
  · intro fileName
    unfold getFileType
    split <;> decide
  · intro url mt
    unfold P0.getFileType
    cases mt with
    | none => exact hext _
    | some m =>
      dsimp only
      by_cases h0 : m = ""
      · rw [if_pos h0]
        exact hext _
      · rw [if_neg h0]
        by_cases h1 : P0.strIncludes m "text/html" = true
        · rw [if_pos h1]
          decide
        · rw [if_neg h1]
          by_cases h2 : P0.strIncludes m "text/css" = true
          · rw [if_pos h2]
            decide
          · rw [if_neg h2]
            by_cases h3 : P0.strIncludes m "javascript" = true
            · rw [if_pos h3]
              decide
            · rw [if_neg h3]
              by_cases h4 : P0.strIncludes m "image/" = true
              · rw [if_pos h4]
                decide
              · rw [if_neg h4]
                by_cases h5 : P0.strIncludes m "font/" = true
                · rw [if_pos h5]
                  decide
                · rw [if_neg h5]
                  exact hext _

/-- C8: a fetched binary asset is stored as a data-URI whose MIME prefix is
the response content-type (falling back to the canonical type from the file
name when the header is absent or empty), whose base64 payload decodes back
to the exact response bytes; the `mimeType` field carries the same value;
and text assets are stored verbatim. -/
theorem C8_binary_data_uri_roundtrip (fid fileName t text : String)
    (ct : Option String) (bytes : List Nat) (h : ∀ b ∈ bytes, b < 256) :
    (mkBinaryAssetFile fid fileName t ct bytes).content =
      "data:" ++ ctOrDefault ct fileName ++ ";base64," ++
        String.mk (b64encodeList bytes) ∧
    b64decodeList (b64encodeList bytes) = bytes ∧
    (mkBinaryAssetFile fid fileName t ct bytes).mimeType = ctOrDefault ct fileName ∧
    (∀ c, ct = some c → c ≠ "" → ctOrDefault ct fileName = c) ∧
    (ct = none → ctOrDefault ct fileName = getMimeType fileName) ∧
    (mkTextAssetFile fid fileName t ct text).content = text := by
  refine ⟨rfl, b64_roundtrip bytes h, rfl, ?_, ?_, rfl⟩
  · intro c hc hne
    subst hc
    unfold ctOrDefault
    dsimp only
    rw [if_neg hne]
  · intro hc
    subst hc
    rfl

/-- Witness for C8 at a concrete PNG response declaring `image/png`. -/
theorem C8_witness :
    (∀ b ∈ [137, 80, 78, 71], b < 256) ∧
    ((mkBinaryAssetFile (sampleIds "x") "img.png" "image" (some "image/png")
        [137, 80, 78, 71]).content =
      "data:" ++ ctOrDefault (some "image/png") "img.png" ++ ";base64," ++
        String.mk (b64encodeList [137, 80, 78, 71]) ∧
     b64decodeList (b64encodeList [137, 80, 78, 71]) = [137, 80, 78, 71] ∧
     (mkBinaryAssetFile (sampleIds "x") "img.png" "image" (some "image/png")
        [137, 80, 78, 71]).mimeType = ctOrDefault (some "image/png") "img.png" ∧
     (∀ c, (some "image/png" : Option String) = some c → c ≠ "" →
       ctOrDefault (some "image/png") "img.png" = c) ∧
     ((some "image/png" : Option String) = none →
       ctOrDefault (some "image/png") "img.png" = getMimeType "img.png") ∧
     (mkTextAssetFile (sampleIds "x") "img.png" "image" (some "image/png") "x").content =
       "x") :=
  ⟨by decide,
   C8_binary_data_uri_roundtrip (sampleIds "x") "img.png" "image" "x" (some "image/png")
     [137, 80, 78, 71] (by decide)⟩

/-- C10: for a present id, `updateExtractionResult` stores and returns the
spread merge of the existing record with the fields present in the update —
absent fields keep their old values, present fields take the new ones — and
every other id of the store is untouched; for an absent id it returns the
`Extraction not found` error before any mutation. -/
theorem C10_update_frame (store : Store) (eid : String) (u : ExtractionUpdates) :
    (∀ e, store eid = some e →
      updateExtractionResult store eid u =
        .ok (updStore store eid (applyUpdates e u), applyUpdates e u)) ∧
    (store eid = none →
      updateExtractionResult store eid u = .error "Extraction not found") ∧
    (∀ (x : ExtractionResult) (j : String), j ≠ eid → updStore store eid x j = store j) ∧
    (∀ x : ExtractionResult, updStore store eid x eid = some x) ∧
    (∀ e : ExtractionResult,
      (u.id = none → (applyUpdates e u).id = e.id) ∧
      (u.url = none → (applyUpdates e u).url = e.url) ∧
      (u.status = none → (applyUpdates e u).status = e.status) ∧
      (u.files = none → (applyUpdates e u).files = e.files) ∧
      (u.totalSize = none → (applyUpdates e u).totalSize = e.totalSize) ∧
      (u.totalFiles = none → (applyUpdates e u).totalFiles = e.totalFiles) ∧
      (u.extractedAt = none → (applyUpdates e u).extractedAt = e.extractedAt) ∧
      (u.error = none → (applyUpdates e u).error = e.error) ∧
      (∀ v, u.status = some v → (applyUpdates e u).status = v) ∧
      (∀ v, u.error = some v → (applyUpdates e u).error = v) ∧
      (∀ v, u.files = some v → (applyUpdates e u).files = v)) := by
  refine ⟨?_, ?_, ?_, ?_, ?_⟩
  · intro e he
    unfold updateExtractionResult
    rw [he]
  · intro he
    unfold updateExtractionResult
    rw [he]
  · intro x j hj
    unfold updStore
    rw [if_neg hj]
  · intro x
    unfold updStore
    rw [if_pos rfl]
  · intro e
    refine ⟨fun h => by simp [applyUpdates, h], fun h => by simp [applyUpdates, h],
      fun h => by simp [applyUpdates, h], fun h => by simp [applyUpdates, h],
      fun h => by simp [applyUpdates, h], fun h => by simp [applyUpdates, h],
      fun h => by simp [applyUpdates, h], fun h => by simp [applyUpdates, h],
      fun v hv => by simp [applyUpdates, hv], fun v hv => by simp [applyUpdates, hv],
      fun v hv => by simp [applyUpdates, hv]⟩

/-- Witness for C10 at a one-entry store and a status-only update. -/
theorem C10_witness :
    c10Store "a" = some c10Entry ∧
    updateExtractionResult c10Store "a" c10Updates =
      .ok (updStore c10Store "a" (applyUpdates c10Entry c10Updates),
        applyUpdates c10Entry c10Updates) ∧
    emptyStore "a" = none ∧
    updateExtractionResult emptyStore "a" c10Updates = .error "Extraction not found" ∧
    (applyUpdates c10Entry c10Updates).url = c10Entry.url ∧
    (applyUpdates c10Entry c10Updates).files = c10Entry.files ∧
    (applyUpdates c10Entry c10Updates).status = "processing" :=
  ⟨rfl,
   (C10_update_frame c10Store "a" c10Updates).1 c10Entry rfl,
   rfl,
   (C10_update_frame emptyStore "a" c10Updates).2.1 rfl,
   ((C10_update_frame c10Store "a" c10Updates).2.2.2.2 c10Entry).2.1 rfl,
   ((C10_update_frame c10Store "a" c10Updates).2.2.2.2 c10Entry).2.2.2.1 rfl,
   ((C10_update_frame c10Store "a" c10Updates).2.2.2.2 c10Entry).2.2.2.2.2.2.2.2.1
     "processing" rfl⟩
